import Mathlib

/-!
Verification development for the YouTube face-search repository
(file `youtube_face_search.py`).

The Python source is shallowly embedded below.  Pure numeric code becomes
Lean functions over `ℚ` and `ℕ`; the external capabilities (OpenCV frame
reads, the face-recognition model, the network and the filesystem) are
modelled by explicit data: a video is a list of frames carrying the two
quality scores the code computes for them, an image is a list of detected
faces carrying their bounding boxes and embedding vectors, and the
orchestrator runs against an environment record describing the outcome of
each external call.  Fallible Python code is embedded with an explicit
exception constructor, and loops whose termination is in question are
embedded with explicit fuel.
-/

namespace YFS

/-- Python `int(q)` on the nonnegative rationals produced by
`fps * interval` computations: truncation toward zero. -/
def pyInt (q : ℚ) : ℕ := (⌊q⌋).toNat

/-- Python 3 `round(q)` to an integer: round half to even. -/
def pyRound (q : ℚ) : ℤ :=
  let n : ℤ := ⌊q⌋
  let r : ℚ := q - n
  if r < 1/2 then n
  else if 1/2 < r then n + 1
  else if n % 2 = 0 then n else n + 1

/-- A video frame, abstracted to the two scores the source computes from
its pixels: `sharpness` is the Laplacian variance computed at lines 67 and
140 of the source, `contrast` the grayscale standard deviation of line 73. -/
structure Frame where
  sharpness : ℚ
  contrast : ℚ
  deriving DecidableEq

/-- `is_frame_blurry` (source lines 64-68): Laplacian variance below the
threshold. -/
def is_frame_blurry (frame : Frame) (threshold : ℚ) : Bool :=
  decide (frame.sharpness < threshold)

/-- `has_low_contrast` (source lines 70-74): grayscale standard deviation
below the threshold. -/
def has_low_contrast (frame : Frame) (threshold : ℚ) : Bool :=
  decide (frame.contrast < threshold)

/-- One emitted sample of `extract_frames`: the chosen frame together with
its frame position (the recorded timestamp is `pos / fps`). -/
structure FrameSample where
  frame : Frame
  pos : ℕ
  deriving DecidableEq

/-- A `cv2.VideoCapture` source: a frame rate and the list of frames.
Reading position `p` succeeds exactly when `p < frames.length`. -/
structure VideoCapture where
  fps : ℚ
  frames : List Frame
  deriving DecidableEq

/-- The window of positions scanned around a target (source lines 131-134):
`range(max(0, target - la), min(total, target + la + 1))`.  Natural-number
subtraction performs the `max(0, ...)` clamp. -/
def windowPositions (total target la : ℕ) : List ℕ :=
  List.range' (target - la) (min total (target + la + 1) - (target - la))

/-- One step of the best-frame fold (source lines 134-144): a failed read
is skipped, and a frame strictly sharper than the best so far replaces it. -/
def scanStep (frames : List Frame) (acc : Option (Frame × ℕ) × ℚ) (pos : ℕ) :
    Option (Frame × ℕ) × ℚ :=
  match frames[pos]? with
  | none => acc
  | some f => if acc.2 < f.sharpness then (some (f, pos), f.sharpness) else acc

/-- The window scan of source lines 128-144: starting from
`best_frame = None, best_laplacian = -1`, keep the sharpest readable frame. -/
def scanWindow (frames : List Frame) (ps : List ℕ) : Option (Frame × ℕ) :=
  (ps.foldl (scanStep frames) (none, -1)).1

/-- The samples contributed by one loop iteration at `target` (source lines
127-155): scan the window, then gate the best frame on blur (threshold 150)
and contrast (threshold 30); a failing best frame is dropped, not replaced. -/
def windowEmit (frames : List Frame) (total target la : ℕ) : List FrameSample :=
  match scanWindow frames (windowPositions total target la) with
  | none => []
  | some (f, pos) =>
    if is_frame_blurry f 150 then []
    else if has_low_contrast f 30 then []
    else [⟨f, pos⟩]

/-- The `while frame_count < total_frames` loop of source lines 119-157,
with explicit fuel.  `none` means the fuel ran out before the loop exited;
a failed read of the target frame is the `break` of line 125. -/
def extractLoopO (frames : List Frame) (s la total : ℕ) :
    ℕ → ℕ → Option (List FrameSample)
  | 0, fc => if fc < total then none else some []
  | fuel + 1, fc =>
    if fc < total then
      match frames[fc]? with
      | none => some []
      | some _ =>
        (extractLoopO frames s la total fuel (fc + s)).map
          (fun rest => windowEmit frames total fc la ++ rest)
    else some []

/-- `extract_frames` (source lines 106-161): step and half-window sizes are
`int(fps * interval)` and `int(fps * look_around)`, and the loop starts at
frame 0. -/
def extract_frames (cap : VideoCapture) (interval lookAround : ℚ) (fuel : ℕ) :
    Option (List FrameSample) :=
  let frame_interval := pyInt (cap.fps * interval)
  let look_around_frames := pyInt (cap.fps * lookAround)
  extractLoopO cap.frames frame_interval look_around_frames cap.frames.length fuel 0

/-- Modelled from the spec: the frame selector as section 4.2 words it, with
step and half-window sizes `round(fps * interval)` and
`round(fps * look_around)` instead of the truncation the source performs.
Used only to compare the spec sentence of claim C3 against the source. -/
def extract_frames_spec (cap : VideoCapture) (interval lookAround : ℚ) (fuel : ℕ) :
    Option (List FrameSample) :=
  extractLoopO cap.frames (pyRound (cap.fps * interval)).toNat
    (pyRound (cap.fps * lookAround)).toNat cap.frames.length fuel 0

/-- A face embedding: the fixed-length numeric vector of the data model,
as an integer vector. -/
abbrev Encoding := List ℤ

/-- The distance capability behind `face_recognition.compare_faces`,
modelled as a computable metric on integer vectors (the matcher logic
proved about below does not depend on the formula). -/
def face_distance (a b : Encoding) : ℚ :=
  ((((a.zip b).map (fun p => (p.1 - p.2).natAbs)).sum : ℕ) : ℚ)

/-- `face_recognition.compare_faces(known, e, tolerance)`: one boolean per
gallery entry, true when the distance is within tolerance. -/
def compare_faces (known : List Encoding) (e : Encoding) (tolerance : ℚ) :
    List Bool :=
  known.map (fun g => decide (face_distance g e ≤ tolerance))

/-- Python `matches.index(True)`: index of the first `true`, meaningful
only when the list contains one (source lines 97 and 191). -/
def indexOfTrue : List Bool → ℕ
  | [] => 0
  | b :: bs => if b then 0 else indexOfTrue bs + 1

/-- A detected face: the `(top, right, bottom, left)` box returned by
`face_locations` together with the encodings `face_encodings` computes for
that box (source lines 89-94). -/
structure Face where
  top : ℤ
  right : ℤ
  bottom : ℤ
  left : ℤ
  encodings : List Encoding
  deriving DecidableEq

/-- The size filter of source line 90: a box whose width or height is
below 40 pixels is skipped. -/
def faceTooSmall (f : Face) : Bool :=
  decide (f.right - f.left < 40) || decide (f.bottom - f.top < 40)

/-- The inner loop of source lines 94-99 for one encoding: if any gallery
entry matches, the index of the first match (`matches.index(True)`). -/
def encodingMatchIndex (known : List Encoding) (tolerance : ℚ) (e : Encoding) :
    Option ℕ :=
  let ms := compare_faces known e tolerance
  if ms.contains true then some (indexOfTrue ms) else none

/-- The face loop of source lines 89-99: faces in detection order, small
faces skipped, return on the first encoding with a gallery match, carrying
the matched gallery index.  An empty face list yields `none`, which is also
the `if not face_locations: return False` of line 86. -/
def firstGalleryMatch (faces : List Face) (known : List Encoding)
    (tolerance : ℚ) : Option ℕ :=
  faces.findSome? (fun f =>
    if faceTooSmall f then none
    else f.encodings.findSome? (encodingMatchIndex known tolerance))

/-- A decoded image, abstracted to the list of faces the detection
capability finds in it. -/
structure PyImage where
  faces : List Face
  deriving DecidableEq

/-- `detect_known_faces_in_image` (source lines 76-104): `None` input
yields false; otherwise true exactly when the face loop finds a match.
The tolerance is the hard-coded 0.45 of line 95; the surrounding
try/except of lines 82-104 makes the source total, which the embedding
reflects by being a total function. -/
def detect_known_faces_in_image (image : Option PyImage)
    (known_face_encodings : List Encoding) (_known_face_names : List String) :
    Bool :=
  match image with
  | none => false
  | some img =>
    (firstGalleryMatch img.faces known_face_encodings (mkRat 45 100)).isSome

/-- One file of the known-faces directory: its name and the encodings the
face model finds in it. -/
structure GalleryFile where
  filename : String
  encodings : List Encoding
  deriving DecidableEq

/-- The characters of a string, lower-cased (Python `str.lower` for the
ASCII file names involved). -/
def lowerChars (s : String) : List Char :=
  s.data.map Char.toLower

/-- The extension filter of source line 50:
`filename.lower().endswith((".jpg", ".jpeg", ".png"))`. -/
def isImageFile (filename : String) : Bool :=
  ".jpg".data.isSuffixOf (lowerChars filename) ||
    ".jpeg".data.isSuffixOf (lowerChars filename) ||
    ".png".data.isSuffixOf (lowerChars filename)

/-- `os.path.splitext(filename)[0]` for ordinary file names: drop the last
dot-separated extension, keep names without a dot unchanged. -/
def splitextRoot (s : String) : String :=
  let rest := s.data.reverse.dropWhile (fun c => !(c == '.'))
  if rest.isEmpty then s else String.mk (rest.drop 1).reverse

/-- `load_known_faces` (source lines 41-62): a missing directory yields
`([], [])`; otherwise every image file with at least one encoding
contributes its first encoding and its extension-stripped name, in
directory order. -/
def load_known_faces (dir : Option (List GalleryFile)) :
    List Encoding × List String :=
  match dir with
  | none => ([], [])
  | some files =>
    files.foldl
      (fun acc file =>
        if isImageFile file.filename then
          match file.encodings with
          | [] => acc
          | e :: _ => (acc.1 ++ [e], acc.2 ++ [splitextRoot file.filename])
        else acc)
      ([], [])

/-- Outcome of one external API call: a value, a raised `HttpError`
(caught by the retry loop of `get_video_and_channel_info`), or any other
raised exception (not caught there). -/
inductive CallResult (α : Type) where
  | ok (a : α)
  | httpError
  | otherError
  deriving DecidableEq

/-- Result of a Python call: a returned value or a propagating exception. -/
inductive PyRes (α : Type) where
  | ok (a : α)
  | exn
  deriving DecidableEq

/-- Whether a `PyRes` is a normal return. -/
def PyRes.isOk {α : Type} : PyRes α → Bool
  | .ok _ => true
  | .exn => false

/-- The metadata environment: the outcome of the `videos().list` and the
`channels().list` call on each attempt (the returned string is the URL
extracted at source lines 235 and 240, possibly empty). -/
structure MetadataEnv where
  videoCall : ℕ → CallResult String
  channelCall : ℕ → CallResult String

/-- The `for attempt in range(retries)` loop of `get_video_and_channel_info`
(source lines 229-247): both URLs are fetched inside one try per attempt;
an `HttpError` from either call retries the whole attempt, any other
exception propagates, and exhausting the loop returns the pair of empty
strings. -/
def getInfoLoop (env : MetadataEnv) : ℕ → ℕ → PyRes (String × String)
  | _, 0 => .ok ("", "")
  | attempt, rem + 1 =>
    match env.videoCall attempt with
    | .otherError => .exn
    | .httpError => getInfoLoop env (attempt + 1) rem
    | .ok thumbnail_url =>
      match env.channelCall attempt with
      | .otherError => .exn
      | .httpError => getInfoLoop env (attempt + 1) rem
      | .ok avatar_url => .ok (thumbnail_url, avatar_url)

/-- `get_video_and_channel_info` (source lines 226-247). -/
def get_video_and_channel_info (env : MetadataEnv) (retries : ℕ) :
    PyRes (String × String) :=
  getInfoLoop env 0 retries

/-- The per-video verdict record built at source lines 276-281. -/
structure MatchResult where
  video_id : String
  has_known_face_in_thumbnail : Bool
  has_known_face_in_avatar : Bool
  has_known_face_in_video : Bool
  deriving DecidableEq

/-- An input record: `none` in a field models a JSON record missing that
key, so that the dictionary access raises `KeyError`. -/
structure VideoRecord where
  video_id : Option String
  channel_id : Option String
  deriving DecidableEq

/-- The environment one `process_video` call runs against.  `download` is
the result of `download_video` (which retries internally, catches every
exception and returns a path or `None`, source lines 200-224).  `frameScan`
is the boolean produced by `extract_frames` followed by
`detect_known_faces_in_frames`; both wrap their whole body in
`try/except Exception` (source lines 109-164 and 169-198), so the combined
step returns a boolean and does not raise.  `removeOk` is whether the
`os.remove` call of line 273 succeeds; when false it raises an `OSError`,
which the `except Exception` at line 287 catches. -/
structure ProcEnv where
  meta : MetadataEnv
  thumbImage : String → Option PyImage
  avatarImage : String → Option PyImage
  download : Option String
  frameScan : Bool
  removeOk : Bool

/-- What one `process_video` call did: its return (or propagated
exception), whether the video download produced a file, and whether that
file was removed before the call returned. -/
structure ProcOutcome where
  result : PyRes MatchResult
  downloaded : Bool
  fileRemoved : Bool
  deriving DecidableEq

/-- The all-false record returned by the handler at source lines 289-294. -/
def allFalseResult (vid : String) : MatchResult :=
  ⟨vid, false, false, false⟩

/-- `process_video` (source lines 249-294).  The two field reads of lines
251-252 happen before the `try` of line 255, so a missing field propagates.
Inside the try: metadata resolution (any non-`HttpError` failure there
propagates to the handler), the thumbnail check when its URL is non-empty,
the avatar check when its URL is non-empty, then the video download; when a
file was downloaded the frame scan runs and `os.remove` is called, and a
failing remove raises into the handler, which returns the all-false record
without removing the file. -/
def process_video (video : VideoRecord) (env : ProcEnv)
    (known_face_encodings : List Encoding) (known_face_names : List String) :
    ProcOutcome :=
  match video.video_id, video.channel_id with
  | none, _ => ⟨.exn, false, false⟩
  | some _, none => ⟨.exn, false, false⟩
  | some vid, some _cid =>
    match get_video_and_channel_info env.meta 3 with
    | .exn => ⟨.ok (allFalseResult vid), false, false⟩
    | .ok (thumbnail_url, avatar_url) =>
      let hthumb :=
        if thumbnail_url = "" then false
        else detect_known_faces_in_image (env.thumbImage thumbnail_url)
          known_face_encodings known_face_names
      let havatar :=
        if avatar_url = "" then false
        else detect_known_faces_in_image (env.avatarImage avatar_url)
          known_face_encodings known_face_names
      match env.download with
      | none => ⟨.ok ⟨vid, hthumb, havatar, false⟩, false, false⟩
      | some _path =>
        let hvideo := env.frameScan
        if env.removeOk then ⟨.ok ⟨vid, hthumb, havatar, hvideo⟩, true, true⟩
        else ⟨.ok (allFalseResult vid), true, false⟩

/-- The `for video in videos` loop of `main` (source lines 314-316): the
loop body is inside the try of line 308, so an exception propagating out of
`process_video` aborts the loop and the remaining videos are never
processed. -/
def runVideos (known_face_encodings : List Encoding)
    (known_face_names : List String) :
    List (VideoRecord × ProcEnv) → PyRes (List MatchResult)
  | [] => .ok []
  | (v, e) :: rest =>
    match (process_video v e known_face_encodings known_face_names).result with
    | .exn => .exn
    | .ok r =>
      match runVideos known_face_encodings known_face_names rest with
      | .exn => .exn
      | .ok rs => .ok (r :: rs)

/-- The environment of one run of `main`: the known-faces directory
(`none` when missing) and the video list with the environment each video
is processed against. -/
structure MainEnv where
  galleryDir : Option (List GalleryFile)
  videos : List (VideoRecord × ProcEnv)

/-- How a run of `main` ends: the early return of source line 305 when the
gallery is empty (no video processed, no result produced), the except
branch of line 322 (results file never written), or normal completion with
the result list written. -/
inductive MainOutcome where
  | abortedEmptyGallery
  | failed
  | finished (results : List MatchResult)
  deriving DecidableEq

/-- `main` (source lines 296-326): load the gallery, return early when it
is empty, otherwise process every video in order. -/
def main (env : MainEnv) : MainOutcome :=
  let loaded := load_known_faces env.galleryDir
  if loaded.1.isEmpty then .abortedEmptyGallery
  else
    match runVideos loaded.1 loaded.2 env.videos with
    | .exn => .failed
    | .ok rs => .finished rs

/-! ### Helper lemmas -/

theorem findSome?_append_none {α β : Type} (f : α → Option β) (l₁ l₂ : List α)
    (h : l₁.findSome? f = none) : (l₁ ++ l₂).findSome? f = l₂.findSome? f := by
  induction l₁ with
  | nil => simp
  | cons a l ih =>
    rw [List.cons_append]
    rw [List.findSome?_cons] at h ⊢
    cases hfa : f a with
    | none => rw [hfa] at h; exact ih h
    | some b => rw [hfa] at h; exact Option.noConfusion h

theorem findSome?_none_of_all {α β : Type} (f : α → Option β) (l : List α)
    (h : ∀ a ∈ l, f a = none) : l.findSome? f = none := by
  induction l with
  | nil => simp
  | cons a l ih =>
    rw [List.findSome?_cons, h a (List.mem_cons_self a l)]
    exact ih (fun x hx => h x (List.mem_cons_of_mem a hx))

theorem indexOfTrue_spec (l : List Bool) (h : l.contains true = true) :
    l[indexOfTrue l]? = some true ∧ ∀ j, j < indexOfTrue l → l[j]? = some false := by
  induction l with
  | nil => simp at h
  | cons b bs ih =>
    cases b with
    | true =>
      refine ⟨by simp [indexOfTrue], ?_⟩
      intro j hj
      simp [indexOfTrue] at hj
    | false =>
      have h2 : bs.contains true = true := by simpa using h
      obtain ⟨h3, h4⟩ := ih h2
      have hidx : indexOfTrue (false :: bs) = indexOfTrue bs + 1 := by
        simp [indexOfTrue]
      refine ⟨?_, ?_⟩
      · rw [hidx]; simpa using h3
      · intro j hj
        rw [hidx] at hj
        cases j with
        | zero => simp
        | succ j => simpa using h4 j (by omega)

theorem scanFold_mem (frames : List Frame) (ps : List ℕ) :
    ∀ (acc : Option (Frame × ℕ) × ℚ) (f : Frame) (p : ℕ),
      (ps.foldl (scanStep frames) acc).1 = some (f, p) →
      acc.1 = some (f, p) ∨ (p ∈ ps ∧ frames[p]? = some f) := by
  induction ps with
  | nil => intro acc f p h; exact Or.inl h
  | cons q ps ih =>
    intro acc f p h
    rw [List.foldl_cons] at h
    rcases ih (scanStep frames acc q) f p h with h2 | h2
    · rw [scanStep] at h2
      cases hq : frames[q]? with
      | none => rw [hq] at h2; exact Or.inl h2
      | some g =>
        simp only [hq] at h2
        by_cases hcmp : acc.2 < g.sharpness
        · rw [if_pos hcmp] at h2
          have h3 : some (g, q) = some (f, p) := h2
          injection h3 with h4
          cases h4
          exact Or.inr ⟨List.mem_cons_self q ps, hq⟩
        · rw [if_neg hcmp] at h2; exact Or.inl h2
    · exact Or.inr ⟨List.mem_cons_of_mem q h2.1, h2.2⟩

theorem scanWindow_mem (frames : List Frame) (ps : List ℕ) (f : Frame) (p : ℕ)
    (h : scanWindow frames ps = some (f, p)) : p ∈ ps ∧ frames[p]? = some f := by
  rcases scanFold_mem frames ps (none, -1) f p h with h2 | h2
  · exact Option.noConfusion h2
  · exact h2

theorem windowEmit_mem (frames : List Frame) (total target la : ℕ)
    (sample : FrameSample) (h : sample ∈ windowEmit frames total target la) :
    sample.pos ∈ windowPositions total target la ∧
      frames[sample.pos]? = some sample.frame ∧
      is_frame_blurry sample.frame 150 = false ∧
      has_low_contrast sample.frame 30 = false := by
  rw [windowEmit] at h
  split at h
  · exact absurd h (List.not_mem_nil sample)
  · rename_i f pos heq
    split at h
    · exact absurd h (List.not_mem_nil sample)
    · split at h
      · exact absurd h (List.not_mem_nil sample)
      · rename_i hb hc
        have hsamp : sample = ⟨f, pos⟩ := List.mem_singleton.mp h
        subst hsamp
        obtain ⟨hmem, hget⟩ := scanWindow_mem frames _ f pos heq
        exact ⟨hmem, hget, by simpa using hb, by simpa using hc⟩
theorem windowPositions_mem (total target la p : ℕ)
    (h : p ∈ windowPositions total target la) :
    target - la ≤ p ∧ p < min total (target + la + 1) := by
  rw [windowPositions] at h
  rw [List.mem_range'_1] at h
  omega

theorem extractLoopO_mem (frames : List Frame) (s la total : ℕ) :
    ∀ (fuel fc : ℕ) (out : List FrameSample) (sample : FrameSample),
      extractLoopO frames s la total fuel fc = some out → sample ∈ out →
      ∃ i, fc + i * s < total ∧
        sample ∈ windowEmit frames total (fc + i * s) la := by
  intro fuel
  induction fuel with
  | zero =>
    intro fc out sample h hmem
    rw [extractLoopO] at h
    split at h
    · exact Option.noConfusion h
    · injection h with h2
      subst h2
      exact absurd hmem (List.not_mem_nil sample)
  | succ fuel ih =>
    intro fc out sample h hmem
    rw [extractLoopO] at h
    split at h
    · rename_i hlt
      cases hread : frames[fc]? with
      | none =>
        rw [hread] at h
        injection h with h2
        subst h2
        exact absurd hmem (List.not_mem_nil sample)
      | some g =>
        rw [hread] at h
        cases hrec : extractLoopO frames s la total fuel (fc + s) with
        | none => rw [hrec] at h; exact Option.noConfusion h
        | some rest =>
          rw [hrec] at h
          injection h with h2
          subst h2
          rcases List.mem_append.mp hmem with h3 | h3
          · exact ⟨0, by simpa using hlt, by simpa using h3⟩
          · obtain ⟨i, hi1, hi2⟩ := ih (fc + s) rest sample hrec h3
            refine ⟨i + 1, ?_, ?_⟩
            · have : fc + (i + 1) * s = fc + s + i * s := by ring
              omega
            · have : fc + (i + 1) * s = fc + s + i * s := by ring
              rw [this]
              exact hi2
    · injection h with h2
      subst h2
      exact absurd hmem (List.not_mem_nil sample)

theorem extractLoopO_isSome (frames : List Frame) (s la total : ℕ) (hs : 1 ≤ s) :
    ∀ (fuel fc : ℕ), total ≤ fc + fuel →
      (extractLoopO frames s la total fuel fc).isSome = true := by
  intro fuel
  induction fuel with
  | zero =>
    intro fc h
    rw [extractLoopO]
    rw [if_neg (by omega)]
    rfl
  | succ fuel ih =>
    intro fc h
    rw [extractLoopO]
    split
    · cases hread : frames[fc]? with
      | none => rfl
      | some g =>
        show (Option.map (fun rest => windowEmit frames total fc la ++ rest)
          (extractLoopO frames s la total fuel (fc + s))).isSome = true
        have h2 := ih (fc + s) (by omega)
        cases hrec : extractLoopO frames s la total fuel (fc + s) with
        | none => rw [hrec] at h2; simp at h2
        | some r => rfl
    · rfl

theorem extractLoopO_none_of_zero_step (frames : List Frame) (la : ℕ) :
    ∀ (fuel fc : ℕ), fc < frames.length →
      extractLoopO frames 0 la frames.length fuel fc = none := by
  intro fuel
  induction fuel with
  | zero =>
    intro fc h
    rw [extractLoopO, if_pos h]
  | succ fuel ih =>
    intro fc h
    rw [extractLoopO]
    rw [if_pos h]
    rw [List.getElem?_eq_getElem h]
    show Option.map (fun rest => windowEmit frames frames.length fc la ++ rest)
      (extractLoopO frames 0 la frames.length fuel (fc + 0)) = none
    rw [Nat.add_zero, ih fc h]
    rfl


/-! ### Claims C3, C4, C6: the frame selector -/


/-- C3 (amended): the frame selector advances between sample positions in
steps of exactly `int(fps * interval)` frames (Python truncation, not
`round`), and at each sample position `p` it examines exactly the frames in
`[p - int(fps * look_around), p + int(fps * look_around)]` clamped to the
video bounds: every emitted sample lies in the window of some step-multiple
target, and its frame is the one read at its recorded position. -/
theorem extract_frames_step_and_window (cap : VideoCapture)
    (interval lookAround : ℚ) (fuel : ℕ) (out : List FrameSample)
    (sample : FrameSample)
    (h1 : extract_frames cap interval lookAround fuel = some out)
    (h2 : sample ∈ out) :
    ∃ i, i * pyInt (cap.fps * interval) < cap.frames.length ∧
      i * pyInt (cap.fps * interval) - pyInt (cap.fps * lookAround) ≤ sample.pos ∧
      sample.pos < min cap.frames.length
        (i * pyInt (cap.fps * interval) + pyInt (cap.fps * lookAround) + 1) ∧
      cap.frames[sample.pos]? = some sample.frame := by
  rw [extract_frames] at h1
  obtain ⟨i, hi1, hi2⟩ :=
    extractLoopO_mem cap.frames (pyInt (cap.fps * interval))
      (pyInt (cap.fps * lookAround)) cap.frames.length fuel 0 out sample h1 h2
  rw [Nat.zero_add] at hi1 hi2
  obtain ⟨hm, hg, _, _⟩ := windowEmit_mem _ _ _ _ _ hi2
  obtain ⟨hlo, hhi⟩ := windowPositions_mem _ _ _ _ hm
  exact ⟨i, hi1, hlo, hhi, hg⟩

def c3Frames : List Frame := [⟨200, 100⟩, ⟨300, 100⟩, ⟨1000, 100⟩]

def c3Cap : VideoCapture := ⟨6, c3Frames⟩

/-- C3 counterexample: at fps 6 with interval 1/2 and look-around 1/4 the
source truncates `fps * look_around = 1.5` to a half-window of 1, while the
claimed `round` gives 2, so on a three-frame video the source selector and
the spec-worded selector emit different samples. -/
theorem extract_frames_uses_truncation :
    extract_frames c3Cap (mkRat 1 2) (mkRat 1 4) 1 =
      some [⟨⟨300, 100⟩, 1⟩] ∧
    extract_frames_spec c3Cap (mkRat 1 2) (mkRat 1 4) 1 =
      some [⟨⟨1000, 100⟩, 2⟩] ∧
    extract_frames c3Cap (mkRat 1 2) (mkRat 1 4) 1 ≠
      extract_frames_spec c3Cap (mkRat 1 2) (mkRat 1 4) 1 := by
  have hfps : c3Cap.fps = 6 := rfl
  have hint : pyInt (c3Cap.fps * mkRat 1 2) = 3 := by
    rw [hfps]
    have h : (6:ℚ) * mkRat 1 2 = 3 := by norm_num [Rat.mkRat_eq_div]
    rw [pyInt, h]
    try norm_num
    try decide
  have hla : pyInt (c3Cap.fps * mkRat 1 4) = 1 := by
    rw [hfps]
    have h : (6:ℚ) * mkRat 1 4 = 3/2 := by norm_num [Rat.mkRat_eq_div]
    rw [pyInt, h]
    try norm_num
    try decide
  have hrint : (pyRound (c3Cap.fps * mkRat 1 2)).toNat = 3 := by
    rw [hfps]
    have h : (6:ℚ) * mkRat 1 2 = 3 := by norm_num [Rat.mkRat_eq_div]
    rw [pyRound, h]
    try norm_num
    try decide
  have hrla : (pyRound (c3Cap.fps * mkRat 1 4)).toNat = 2 := by
    rw [hfps]
    have h : (6:ℚ) * mkRat 1 4 = 3/2 := by norm_num [Rat.mkRat_eq_div]
    rw [pyRound, h]
    try norm_num
    try decide
  have e1 : extract_frames c3Cap (mkRat 1 2) (mkRat 1 4) 1 =
      extractLoopO c3Frames 3 1 3 1 0 := by
    rw [extract_frames, hint, hla]; rfl
  have e2 : extract_frames_spec c3Cap (mkRat 1 2) (mkRat 1 4) 1 =
      extractLoopO c3Frames 3 2 3 1 0 := by
    rw [extract_frames_spec, hrint, hrla]; rfl
  rw [e1, e2]
  refine ⟨by decide, by decide, by decide⟩

/-- C4: `extract_frames` terminates for every video whose frame rate and
interval satisfy `int(fps * interval) >= 1` (fuel equal to the frame count
suffices, because the scan index strictly increases by the step each
iteration), and the precondition is necessary: with a zero step and a
nonempty video no amount of fuel completes the loop. -/
theorem extract_frames_termination (cap : VideoCapture)
    (interval lookAround : ℚ) :
    (1 ≤ pyInt (cap.fps * interval) →
      (extract_frames cap interval lookAround cap.frames.length).isSome = true) ∧
    (pyInt (cap.fps * interval) = 0 → 1 ≤ cap.frames.length →
      ∀ fuel, extract_frames cap interval lookAround fuel = none) := by
  constructor
  · intro hs
    rw [extract_frames]
    exact extractLoopO_isSome cap.frames (pyInt (cap.fps * interval))
      (pyInt (cap.fps * lookAround)) cap.frames.length hs cap.frames.length 0
      (by omega)
  · intro hz hlen fuel
    rw [extract_frames, hz]
    exact extractLoopO_none_of_zero_step cap.frames
      (pyInt (cap.fps * lookAround)) fuel 0 (by omega)

def c4Cap : VideoCapture := ⟨6, [⟨200, 100⟩]⟩

theorem extract_frames_termination_witness :
    (extract_frames c4Cap (mkRat 1 2) (mkRat 1 4) 1).isSome = true ∧
    extract_frames c4Cap 0 (mkRat 1 4) 5 = none := by
  have hint : pyInt (c4Cap.fps * mkRat 1 2) = 3 := by
    have h : c4Cap.fps * mkRat 1 2 = 3 := by
      show (6:ℚ) * mkRat 1 2 = 3
      norm_num [Rat.mkRat_eq_div]
    rw [pyInt, h]
    try norm_num
    try decide
  have hz : pyInt (c4Cap.fps * 0) = 0 := by
    have h : c4Cap.fps * 0 = 0 := by norm_num
    rw [pyInt, h]
    try norm_num
    try decide
  constructor
  · exact (extract_frames_termination c4Cap (mkRat 1 2) (mkRat 1 4)).1
      (by rw [hint]; omega)
  · exact (extract_frames_termination c4Cap 0 (mkRat 1 4)).2 hz (by decide) 5

/-- C6: every `FrameSample` emitted by the frame selector passes both
quality gates (not blurry at threshold 150, not low-contrast at threshold
30), and a window whose best frame fails either gate contributes no sample
at all (discarded, not replaced). -/
theorem extract_frames_quality_gate (cap : VideoCapture)
    (interval lookAround : ℚ) (fuel : ℕ) (out : List FrameSample)
    (sample : FrameSample)
    (h1 : extract_frames cap interval lookAround fuel = some out)
    (h2 : sample ∈ out) :
    is_frame_blurry sample.frame 150 = false ∧
    has_low_contrast sample.frame 30 = false ∧
    ∀ total target la f p,
      scanWindow cap.frames (windowPositions total target la) = some (f, p) →
      (is_frame_blurry f 150 = true ∨ has_low_contrast f 30 = true) →
      windowEmit cap.frames total target la = [] := by
  rw [extract_frames] at h1
  obtain ⟨i, hi1, hi2⟩ :=
    extractLoopO_mem cap.frames (pyInt (cap.fps * interval))
      (pyInt (cap.fps * lookAround)) cap.frames.length fuel 0 out sample h1 h2
  obtain ⟨_, _, hb, hc⟩ := windowEmit_mem _ _ _ _ _ hi2
  refine ⟨hb, hc, ?_⟩
  intro total target la f p hscan hfail
  rw [windowEmit, hscan]
  show (if is_frame_blurry f 150 then []
    else if has_low_contrast f 30 then [] else [(⟨f, p⟩ : FrameSample)]) = []
  rcases hfail with hf | hf
  · rw [if_pos hf]
  · by_cases hb2 : is_frame_blurry f 150
    · rw [if_pos hb2]
    · rw [if_neg hb2, if_pos hf]

def c6Cap : VideoCapture := ⟨6, [⟨200, 100⟩]⟩

theorem extract_frames_quality_gate_witness :
    is_frame_blurry ⟨200, 100⟩ 150 = false ∧
    has_low_contrast ⟨200, 100⟩ 30 = false := by
  have hint : pyInt (c6Cap.fps * mkRat 1 2) = 3 := by
    have h : c6Cap.fps * mkRat 1 2 = 3 := by
      show (6:ℚ) * mkRat 1 2 = 3
      norm_num [Rat.mkRat_eq_div]
    rw [pyInt, h]
    try norm_num
    try decide
  have hla : pyInt (c6Cap.fps * mkRat 1 4) = 1 := by
    have h : c6Cap.fps * mkRat 1 4 = 3/2 := by
      show (6:ℚ) * mkRat 1 4 = 3/2
      norm_num [Rat.mkRat_eq_div]
    rw [pyInt, h]
    try norm_num
    try decide
  have h1 : extract_frames c6Cap (mkRat 1 2) (mkRat 1 4) 1 =
      some [⟨⟨200, 100⟩, 0⟩] := by
    rw [extract_frames, hint, hla]
    decide
  have h := extract_frames_quality_gate c6Cap (mkRat 1 2) (mkRat 1 4) 1
    [⟨⟨200, 100⟩, 0⟩] ⟨⟨200, 100⟩, 0⟩ h1 (List.mem_singleton.mpr rfl)
  exact ⟨h.1, h.2.1⟩


/-! ### Claims C8, C9: the face matcher -/


/-- Witness for C3 (amended): the sample emitted by the source selector on
the three-frame counterexample video sits in the window of a step-multiple
target and was read at its recorded position. -/
theorem extract_frames_step_and_window_witness :
    ∃ i, i * pyInt (c3Cap.fps * mkRat 1 2) < c3Cap.frames.length ∧
      i * pyInt (c3Cap.fps * mkRat 1 2) - pyInt (c3Cap.fps * mkRat 1 4) ≤
        (⟨⟨300, 100⟩, 1⟩ : FrameSample).pos ∧
      (⟨⟨300, 100⟩, 1⟩ : FrameSample).pos < min c3Cap.frames.length
        (i * pyInt (c3Cap.fps * mkRat 1 2) + pyInt (c3Cap.fps * mkRat 1 4) + 1) ∧
      c3Cap.frames[(⟨⟨300, 100⟩, 1⟩ : FrameSample).pos]? =
        some (⟨⟨300, 100⟩, 1⟩ : FrameSample).frame := by
  have hint : pyInt (c3Cap.fps * mkRat 1 2) = 3 := by
    have h : c3Cap.fps * mkRat 1 2 = 3 := by
      show (6:ℚ) * mkRat 1 2 = 3
      norm_num [Rat.mkRat_eq_div]
    rw [pyInt, h]
    try norm_num
    try decide
  have hla : pyInt (c3Cap.fps * mkRat 1 4) = 1 := by
    have h : c3Cap.fps * mkRat 1 4 = 3/2 := by
      show (6:ℚ) * mkRat 1 4 = 3/2
      norm_num [Rat.mkRat_eq_div]
    rw [pyInt, h]
    try norm_num
    try decide
  have h1 : extract_frames c3Cap (mkRat 1 2) (mkRat 1 4) 1 =
      some [⟨⟨300, 100⟩, 1⟩] := by
    rw [extract_frames, hint, hla]
    decide
  exact extract_frames_step_and_window c3Cap (mkRat 1 2) (mkRat 1 4) 1
    [⟨⟨300, 100⟩, 1⟩] ⟨⟨300, 100⟩, 1⟩ h1 (List.mem_singleton.mpr rfl)

/-- C8: the face matcher returns true on the first surviving face whose
encoding matches some gallery entry, independently of every face that
follows it (the list after that face is universally quantified), and the
gallery index it reports is the first matching entry in gallery order:
that entry is within tolerance and every earlier entry is not. -/
theorem detect_first_match_and_tiebreak (pre post : List Face) (f : Face)
    (e : Encoding) (known : List Encoding) (names : List String) (i : ℕ)
    (hpre : firstGalleryMatch pre known (mkRat 45 100) = none)
    (hsize : faceTooSmall f = false)
    (henc : f.encodings = [e])
    (hmatch : encodingMatchIndex known (mkRat 45 100) e = some i) :
    detect_known_faces_in_image (some ⟨pre ++ f :: post⟩) known names = true ∧
    firstGalleryMatch (pre ++ f :: post) known (mkRat 45 100) = some i ∧
    (∃ g, known[i]? = some g ∧ face_distance g e ≤ mkRat 45 100) ∧
    (∀ j, j < i → ∀ g, known[j]? = some g →
      ¬(face_distance g e ≤ mkRat 45 100)) := by
  have hface : (if faceTooSmall f = true then none
      else f.encodings.findSome? (encodingMatchIndex known (mkRat 45 100))) =
      some i := by
    rw [hsize]
    rw [if_neg (by simp)]
    rw [henc, List.findSome?_cons, hmatch]
  have hfgm : firstGalleryMatch (pre ++ f :: post) known (mkRat 45 100) =
      some i := by
    rw [firstGalleryMatch]
    rw [findSome?_append_none _ pre (f :: post) hpre]
    rw [List.findSome?_cons, hface]
    try rfl
  have hms : (compare_faces known e (mkRat 45 100)).contains true = true ∧
      i = indexOfTrue (compare_faces known e (mkRat 45 100)) := by
    rw [encodingMatchIndex] at hmatch
    by_cases hc : (compare_faces known e (mkRat 45 100)).contains true
    · rw [if_pos hc] at hmatch
      exact ⟨hc, (Option.some.injEq .. ▸ hmatch).symm⟩
    · rw [if_neg hc] at hmatch
      exact Option.noConfusion hmatch
  obtain ⟨hc, hidx⟩ := hms
  obtain ⟨htrue, hfalse⟩ := indexOfTrue_spec _ hc
  rw [← hidx] at htrue hfalse
  refine ⟨?_, hfgm, ?_, ?_⟩
  · rw [detect_known_faces_in_image]
    rw [hfgm]
    rfl
  · rw [compare_faces, List.getElem?_map] at htrue
    cases hg : known[i]? with
    | none => rw [hg] at htrue; exact Option.noConfusion htrue
    | some g =>
      rw [hg] at htrue
      refine ⟨g, rfl, ?_⟩
      have h2 : decide (face_distance g e ≤ mkRat 45 100) = true := by
        simpa using htrue
      exact of_decide_eq_true h2
  · intro j hj g hg
    have h2 := hfalse j hj
    rw [compare_faces, List.getElem?_map, hg] at h2
    have h3 : decide (face_distance g e ≤ mkRat 45 100) = false := by
      simpa using h2
    exact of_decide_eq_false h3

def c8Small : Face := ⟨0, 10, 10, 0, [[10]]⟩

def c8Face : Face := ⟨0, 100, 100, 0, [[10]]⟩

def c8Known : List Encoding := [[5], [10], [10]]

/-- Witness for C8: a gallery of three entries where the second and third
both match; a small face is skipped, the match reports index 1, and the
trailing matching face is never needed. -/
theorem detect_first_match_and_tiebreak_witness :
    detect_known_faces_in_image (some ⟨[c8Small, c8Face, c8Face]⟩) c8Known
      ["a", "b", "c"] = true ∧
    firstGalleryMatch [c8Small, c8Face, c8Face] c8Known (mkRat 45 100) =
      some 1 := by
  have h := detect_first_match_and_tiebreak [c8Small] [c8Face] c8Face [10]
    c8Known ["a", "b", "c"] 1 (by decide) (by decide) rfl (by decide)
  exact ⟨h.1, h.2.1⟩

/-- C9: the face matcher returns false (and, being a total function like
the try/except-wrapped source, never raises) when the image is absent, and
when every detected face is either below the 40x40 size floor or has no
encoding matching any gallery entry within tolerance; zero faces is the
vacuous case. -/
theorem detect_false_cases (known : List Encoding) (names : List String)
    (img : PyImage)
    (h : ∀ f ∈ img.faces, faceTooSmall f = true ∨
      ∀ e ∈ f.encodings, encodingMatchIndex known (mkRat 45 100) e = none) :
    detect_known_faces_in_image none known names = false ∧
    detect_known_faces_in_image (some img) known names = false := by
  refine ⟨rfl, ?_⟩
  rw [detect_known_faces_in_image]
  have hnone : firstGalleryMatch img.faces known (mkRat 45 100) = none := by
    rw [firstGalleryMatch]
    apply findSome?_none_of_all
    intro f hf
    rcases h f hf with h2 | h2
    · rw [if_pos h2]
    · by_cases hts : faceTooSmall f
      · rw [if_pos hts]
      · rw [if_neg hts]
        exact findSome?_none_of_all _ _ h2
  rw [hnone]
  rfl

/-- Witness for C9: an absent image, and an image with one undersized face
and one distant face, both yield false. -/
theorem detect_false_cases_witness :
    detect_known_faces_in_image none [[5]] ["a"] = false ∧
    detect_known_faces_in_image (some ⟨[⟨0, 10, 10, 0, [[10]]⟩,
      ⟨0, 100, 100, 0, [[99]]⟩]⟩) [[5]] ["a"] = false :=
  detect_false_cases [[5]] ["a"] ⟨[⟨0, 10, 10, 0, [[10]]⟩,
    ⟨0, 100, 100, 0, [[99]]⟩]⟩ (by decide)


/-! ### Claims C1, C2, C5, C7, C10: the orchestrator and the gallery -/


/-- Projection of one normal `process_video` run: when the two record
fields are present, metadata resolution returns normally and a downloaded
file (if any) can be removed, each field of the verdict equals its own
check and the file state mirrors the download. -/
theorem process_video_fields (vid cid : String) (env : ProcEnv)
    (known : List Encoding) (names : List String) (t a : String)
    (hmeta : get_video_and_channel_info env.meta 3 = .ok (t, a))
    (hrm : env.download.isSome = true → env.removeOk = true) :
    process_video ⟨some vid, some cid⟩ env known names =
      ⟨.ok ⟨vid,
        (if t = "" then false
          else detect_known_faces_in_image (env.thumbImage t) known names),
        (if a = "" then false
          else detect_known_faces_in_image (env.avatarImage a) known names),
        (if env.download.isSome then env.frameScan else false)⟩,
       env.download.isSome, env.download.isSome⟩ := by
  rw [process_video]
  simp only [hmeta]
  cases hd : env.download with
  | none => simp
  | some p =>
    have hr : env.removeOk = true := hrm (by rw [hd]; rfl)
    simp [hr]

def c5Env : ProcEnv :=
  ⟨⟨fun _ => .ok "t", fun _ => .ok "a"⟩,
   fun _ => some ⟨[]⟩,
   fun _ => some ⟨[⟨0, 100, 100, 0, [[10]]⟩]⟩,
   none, false, true⟩

/-- C5: the orchestrator computes and records the three booleans
independently: the thumbnail field depends only on the thumbnail check, the
avatar field only on the avatar check and the video field only on the frame
scan, whatever the other two produced, so an earlier match neither skips
nor alters a later check. -/
theorem process_video_independent_checks (vid cid : String) (env : ProcEnv)
    (known : List Encoding) (names : List String) (t a : String)
    (hmeta : get_video_and_channel_info env.meta 3 = .ok (t, a))
    (hrm : env.download.isSome = true → env.removeOk = true) :
    (process_video ⟨some vid, some cid⟩ env known names).result =
      .ok ⟨vid,
        (if t = "" then false
          else detect_known_faces_in_image (env.thumbImage t) known names),
        (if a = "" then false
          else detect_known_faces_in_image (env.avatarImage a) known names),
        (if env.download.isSome then env.frameScan else false)⟩ := by
  rw [process_video_fields vid cid env known names t a hmeta hrm]

/-- Witness for C5: an avatar that matches the gallery yields an avatar
verdict of true while the thumbnail and video checks still report their own
independent false results. -/
theorem process_video_independent_checks_witness :
    (process_video ⟨some "v", some "c"⟩ c5Env [[10]] ["p"]).result =
      .ok ⟨"v", false, true, false⟩ := by
  have h := process_video_independent_checks "v" "c" c5Env [[10]] ["p"] "t" "a"
    rfl (by intro h2; exact absurd h2 (by decide))
  rw [h]
  decide

def c1Env : ProcEnv :=
  ⟨⟨fun _ => .ok "", fun _ => .ok ""⟩,
   fun _ => none, fun _ => none, some "p", false, false⟩

/-- C1 counterexample: a run in which the download succeeds and then an
exception is raised before removal completes (the `os.remove` of source
line 273 fails).  The handler at line 287 returns the all-false record
without removing the file, so the temporary video file is not removed
before `process_video` returns on this exit path. -/
theorem process_video_leaks_file_on_remove_exception :
    (process_video ⟨some "v", some "c"⟩ c1Env [[1]] ["p"]).downloaded = true ∧
    (process_video ⟨some "v", some "c"⟩ c1Env [[1]] ["p"]).fileRemoved = false ∧
    (process_video ⟨some "v", some "c"⟩ c1Env [[1]] ["p"]).result =
      .ok ⟨"v", false, false, false⟩ := by
  refine ⟨?_, ?_, ?_⟩ <;> rfl

/-- C1 (amended): on the exit paths that complete the frame scan (match or
no-match) the temporary file is removed before `process_video` returns,
provided the removal call itself succeeds; an exception after the download
instead reaches the handler, which does not remove the file. -/
theorem process_video_removes_file (video : VideoRecord) (env : ProcEnv)
    (known : List Encoding) (names : List String)
    (h1 : (process_video video env known names).downloaded = true)
    (h2 : env.removeOk = true) :
    (process_video video env known names).fileRemoved = true := by
  obtain ⟨ovid, ocid⟩ := video
  cases ovid with
  | none => simp [process_video] at h1
  | some vid =>
    cases ocid with
    | none => simp [process_video] at h1
    | some cid =>
      cases hm : get_video_and_channel_info env.meta 3 with
      | exn => simp [process_video, hm] at h1
      | ok ta =>
        obtain ⟨t, a⟩ := ta
        cases hd : env.download with
        | none => simp [process_video, hm, hd] at h1
        | some p => simp [process_video, hm, hd, h2]

def c1EnvB : ProcEnv :=
  ⟨⟨fun _ => .ok "", fun _ => .ok ""⟩,
   fun _ => none, fun _ => none, some "p", true, true⟩

/-- Witness for C1 (amended): a normal run with a successful download and
removal ends with the file removed. -/
theorem process_video_removes_file_witness :
    (process_video ⟨some "v", some "c"⟩ c1EnvB [[1]] ["p"]).fileRemoved =
      true :=
  process_video_removes_file ⟨some "v", some "c"⟩ c1EnvB [[1]] ["p"] rfl rfl

def c2Env : ProcEnv :=
  ⟨⟨fun _ => .ok "", fun _ => .ok ""⟩,
   fun _ => none, fun _ => none, none, false, true⟩

/-- C2 counterexample: the field reads of source lines 251-252 are outside
the try of line 255, so a record missing `channel_id` raises out of
`process_video`; the loop in `main` is inside one try, so the following
well-formed video is never processed and the run ends in the except branch
with no results written, even though that video alone would have produced a
verdict. -/
theorem missing_field_aborts_run :
    runVideos [[1]] ["p"] [(⟨some "b", none⟩, c2Env), (⟨some "g", some "c"⟩, c2Env)] =
      .exn ∧
    (process_video ⟨some "g", some "c"⟩ c2Env [[1]] ["p"]).result =
      .ok ⟨"g", false, false, false⟩ ∧
    main ⟨some [⟨"a.jpg", [[1]]⟩],
      [(⟨some "b", none⟩, c2Env), (⟨some "g", some "c"⟩, c2Env)]⟩ = .failed := by
  refine ⟨rfl, rfl, ?_⟩
  decide

/-- Once both record fields are present, every exception inside
`process_video` is caught and converted to a returned record: the result is
always a normal return. -/
theorem process_video_never_exn (v : VideoRecord) (env : ProcEnv)
    (known : List Encoding) (names : List String)
    (hv : v.video_id.isSome = true) (hc : v.channel_id.isSome = true) :
    ((process_video v env known names).result).isOk = true := by
  obtain ⟨ovid, ocid⟩ := v
  cases ovid with
  | none => simp at hv
  | some vid =>
    cases ocid with
    | none => simp at hc
    | some cid =>
      cases hm : get_video_and_channel_info env.meta 3 with
      | exn => simp [process_video, hm, PyRes.isOk]
      | ok ta =>
        obtain ⟨t, a⟩ := ta
        cases hd : env.download with
        | none => simp [process_video, hm, hd, PyRes.isOk]
        | some p =>
          by_cases hr : env.removeOk
          · simp [process_video, hm, hd, hr, PyRes.isOk]
          · rw [Bool.not_eq_true] at hr
            simp [process_video, hm, hd, hr, PyRes.isOk]

/-- C2 (amended): for records that have both `video_id` and `channel_id`,
any exception raised while processing one video is caught inside
`process_video` and converted into an all-false `MatchResult` (shown for a
metadata failure, the stage that can raise first inside the try), and the
whole run over such records completes normally; only a record missing one
of the two fields escapes the handler and aborts the remaining videos. -/
theorem process_video_isolates_failures (known : List Encoding)
    (names : List String) (videos : List (VideoRecord × ProcEnv))
    (h : ∀ p ∈ videos, p.1.video_id.isSome = true ∧
      p.1.channel_id.isSome = true) :
    (runVideos known names videos).isOk = true ∧
    (∀ s c (env2 : ProcEnv),
      get_video_and_channel_info env2.meta 3 = .exn →
      (process_video ⟨some s, some c⟩ env2 known names).result =
        .ok ⟨s, false, false, false⟩) := by
  constructor
  · induction videos with
    | nil => rfl
    | cons p rest ih =>
      obtain ⟨v, e⟩ := p
      obtain ⟨hv, hc⟩ := h (v, e) (List.mem_cons_self _ _)
      have hok := process_video_never_exn v e known names hv hc
      rw [runVideos]
      cases hres : (process_video v e known names).result with
      | exn => rw [hres] at hok; exact absurd hok (by decide)
      | ok r =>
        have ih2 := ih (fun q hq => h q (List.mem_cons_of_mem _ hq))
        cases hrest : runVideos known names rest with
        | exn => rw [hrest] at ih2; exact absurd ih2 (by decide)
        | ok rs => rfl
  · intro s c env2 hmeta
    rw [process_video, hmeta]
    rfl

def c2EnvFail : ProcEnv :=
  ⟨⟨fun _ => .otherError, fun _ => .ok ""⟩,
   fun _ => none, fun _ => none, none, false, true⟩

/-- Witness for C2 (amended): a run whose first video fails during
metadata resolution still completes the whole list. -/
theorem process_video_isolates_failures_witness :
    (runVideos [[1]] ["p"] [(⟨some "x", some "y"⟩, c2EnvFail),
      (⟨some "g", some "c"⟩, c2Env)]).isOk = true :=
  (process_video_isolates_failures [[1]] ["p"]
    [(⟨some "x", some "y"⟩, c2EnvFail), (⟨some "g", some "c"⟩, c2Env)]
    (by decide)).1

def c10Meta : MetadataEnv := ⟨fun _ => .ok "T", fun _ => .httpError⟩

/-- C10 counterexample: with the videos call always succeeding with
thumbnail URL `T` and the channels call always raising `HttpError`, the
retry loop exhausts and returns both URLs empty: the resolvable thumbnail
URL is discarded together with the failing avatar URL, so the two surfaces
do not degrade independently (with a working channels call the same video
call yields `T`). -/
theorem metadata_urls_degrade_together :
    get_video_and_channel_info c10Meta 3 = .ok ("", "") ∧
    c10Meta.videoCall 0 = .ok "T" ∧ c10Meta.videoCall 1 = .ok "T" ∧
    c10Meta.videoCall 2 = .ok "T" ∧
    get_video_and_channel_info ⟨c10Meta.videoCall, fun _ => .ok "A"⟩ 3 =
      .ok ("T", "A") := by
  exact ⟨rfl, rfl, rfl, rfl, rfl⟩

/-- C10 (amended): when every attempt fails with an `HttpError` in either
of the two metadata calls, the orchestrator treats BOTH URLs as absent
(the pair of empty strings), skips both image checks, and does not fail the
video: the frame check still runs when a file is downloaded. -/
theorem metadata_exhaustion_blanks_both (env : ProcEnv) (vid cid : String)
    (known : List Encoding) (names : List String)
    (h : ∀ k, k < 3 → env.meta.videoCall k = .httpError ∨
      (∃ t, env.meta.videoCall k = .ok t ∧ env.meta.channelCall k = .httpError))
    (hrm : env.download.isSome = true → env.removeOk = true) :
    get_video_and_channel_info env.meta 3 = .ok ("", "") ∧
    (process_video ⟨some vid, some cid⟩ env known names).result =
      .ok ⟨vid, false, false,
        (if env.download.isSome then env.frameScan else false)⟩ := by
  have hstep : ∀ k, k < 3 →
      ∀ rem, getInfoLoop env.meta k (rem + 1) = getInfoLoop env.meta (k + 1) rem := by
    intro k hk rem
    rcases h k hk with h2 | ⟨t, h2, h3⟩
    · rw [getInfoLoop, h2]
    · rw [getInfoLoop, h2, h3]
  have hinfo : get_video_and_channel_info env.meta 3 = .ok ("", "") := by
    rw [get_video_and_channel_info]
    rw [show (3:ℕ) = 2 + 1 from rfl, hstep 0 (by omega) 2]
    rw [show (2:ℕ) = 1 + 1 from rfl, hstep 1 (by omega) 1]
    rw [show (1:ℕ) = 0 + 1 from rfl, hstep 2 (by omega) 0]
    rfl
  refine ⟨hinfo, ?_⟩
  rw [process_video_fields vid cid env known names "" "" hinfo hrm]
  simp

def c10Env : ProcEnv :=
  ⟨⟨fun _ => .ok "T", fun _ => .httpError⟩,
   fun _ => none, fun _ => none, some "p", true, true⟩

/-- Witness for C10 (amended): persistent channel-call failure blanks both
URLs, yet the downloaded video frame scan still produces the video verdict. -/
theorem metadata_exhaustion_blanks_both_witness :
    get_video_and_channel_info c10Env.meta 3 = .ok ("", "") ∧
    (process_video ⟨some "v", some "c"⟩ c10Env [[1]] ["p"]).result =
      .ok ⟨"v", false, false, true⟩ := by
  have h := metadata_exhaustion_blanks_both c10Env "v" "c" [[1]] ["p"]
    (fun k _ => Or.inr ⟨"T", rfl, rfl⟩) (fun _ => rfl)
  exact ⟨h.1, h.2⟩

/-- C7: a missing known-faces directory, or one yielding zero usable
entries, makes the run stop at the empty-gallery check before any video is
processed and with no `MatchResult` produced; with a nonempty gallery the
run is never aborted there, and on normal completion the results are those
of processing every video against the fully built gallery. -/
theorem gallery_precondition (env : MainEnv) :
    (env.galleryDir = none → main env = .abortedEmptyGallery) ∧
    ((load_known_faces env.galleryDir).1 = [] →
      main env = .abortedEmptyGallery) ∧
    ((load_known_faces env.galleryDir).1 ≠ [] →
      main env ≠ .abortedEmptyGallery ∧
      (main env = .failed ∨ ∃ rs, main env = .finished rs ∧
        runVideos (load_known_faces env.galleryDir).1
          (load_known_faces env.galleryDir).2 env.videos = .ok rs)) := by
  refine ⟨?_, ?_, ?_⟩
  · intro h
    rw [main, h]
    rfl
  · intro h
    rw [main]
    rw [show (load_known_faces env.galleryDir).1.isEmpty = true by
      rw [h]; rfl]
    rfl
  · intro h
    have hne : (load_known_faces env.galleryDir).1.isEmpty = false := by
      cases hl : (load_known_faces env.galleryDir).1 with
      | nil => exact absurd hl h
      | cons x xs => rfl
    rw [main, hne]
    cases hr : runVideos (load_known_faces env.galleryDir).1
        (load_known_faces env.galleryDir).2 env.videos with
    | exn => exact ⟨by simp, Or.inl rfl⟩
    | ok rs => exact ⟨by simp, Or.inr ⟨rs, rfl, rfl⟩⟩

def c7EnvMissing : MainEnv := ⟨none, []⟩

def c7EnvGood : MainEnv := ⟨some [⟨"a.jpg", [[1]]⟩], []⟩

/-- Witness for C7: a missing directory aborts the run; a directory with
one usable reference image does not. -/
theorem gallery_precondition_witness :
    main c7EnvMissing = .abortedEmptyGallery ∧
    main c7EnvGood ≠ .abortedEmptyGallery := by
  exact ⟨(gallery_precondition c7EnvMissing).1 rfl,
    ((gallery_precondition c7EnvGood).2.2 (by decide)).1⟩

end YFS
